import Mathlib

/-!
# KWP2000 diagnostic client — verification of the core byte-level functions

Shallow embedding of the pure parts of `src/core/kwp2000.py`:
checksum computation and the receive-side checksum validation of
`KWP2000.send_request`, header construction (`KWP2000.build_header`),
response parsing (`KWP2000.parse_response`), and the three response
decoders of `KWPUtils` (`parse_dtcs`, `parse_identification`,
`parse_ass_params`).

Bytes are modelled as `Nat` (with explicit `< 256` hypotheses where the
byte range matters).  Python code that can raise (`ValueError` for a too
short response, `IndexError` for out-of-bounds `bytes` indexing) is
modelled with `Except ParseError`; Python functions that cannot raise are
total Lean functions.  Python's float arithmetic in the battery-voltage
field is modelled exactly over `ℚ`.
-/

namespace KWP2000

/-- The fixed ECU address `self.ECU_ADDRESS = 0x10` set in `KWP2000.__init__`. -/
def ECU_ADDRESS : Nat := 0x10

/-- The fixed tester address `self.TESTER_ADDRESS = 0xF1` set in `KWP2000.__init__`. -/
def TESTER_ADDRESS : Nat := 0xF1

/-- Model of `KWP2000.build_header`: 3-byte header `[0x80 | (length & 0x3F), ecu, tester]`,
or, with `has_length_byte`, the 4-byte header with an explicit trailing length
byte.  In Python, `bytes([...])` raises `ValueError` when `length > 255` is
placed into the 4-byte header; that failure is modelled by `none`. -/
def build_header (length : Nat) (has_length_byte : Bool) : Option (List Nat) :=
  let fmt := 0x80 ||| (length &&& 0x3F)
  if has_length_byte then
    if length ≤ 0xFF then some [fmt, ECU_ADDRESS, TESTER_ADDRESS, length] else none
  else
    some [fmt, ECU_ADDRESS, TESTER_ADDRESS]

/-- Model of `KWP2000.calculate_checksum`: `sum(data) & 0xFF`, the 8-bit unsigned sum. -/
def calculate_checksum (data : List Nat) : Nat :=
  data.sum % 256

/-- The receive-side checksum validation performed by `KWP2000.send_request`:
for a non-empty response, the last byte must equal `calculate_checksum` of all
preceding bytes (`response[-1] == calculate_checksum(response[:-1])`); an
empty response is passed through without validation. -/
def checksum_valid (response : List Nat) : Bool :=
  if response.length = 0 then true
  else response.getLastD 0 == calculate_checksum response.dropLast

/-- The ways the Python parsing code can raise: `tooShort` models the
`ValueError("Слишком короткий ответ")` of `parse_response`, and
`indexOutOfRange` models Python's `IndexError` from indexing a `bytes`
object out of bounds (a defined, propagating error — Python has no
undefined behaviour here). -/
inductive ParseError
  | tooShort
  | indexOutOfRange
deriving DecidableEq

/-- The result dict of `KWP2000.parse_response`: `{'type': 'error', ...}`
(negative response) or `{'type': 'response', ...}` (positive response).
The positive `service_id` is `response[3] - 0x40` computed in Python's
unbounded integers, hence `Int`. -/
inductive ServiceResult
  | negative (service_id error_code : Nat)
  | positive (service_id : Int) (data : List Nat)
deriving DecidableEq

instance {ε α : Type} [DecidableEq ε] [DecidableEq α] : DecidableEq (Except ε α) := fun a b =>
  match a, b with
  | Except.ok x, Except.ok y =>
    if h : x = y then isTrue (by rw [h]) else isFalse (by simp [h])
  | Except.error x, Except.error y =>
    if h : x = y then isTrue (by rw [h]) else isFalse (by simp [h])
  | Except.ok _, Except.error _ => isFalse (fun h => Except.noConfusion h)
  | Except.error _, Except.ok _ => isFalse (fun h => Except.noConfusion h)

/-- Python indexing `xs[i]` on a `bytes` object: the element, or an
`IndexError` when `i` is out of range. -/
def getByte (xs : List Nat) (i : Nat) : Except ParseError Nat :=
  match xs[i]? with
  | some v => Except.ok v
  | none => Except.error ParseError.indexOutOfRange

/-- Model of `KWP2000.parse_response`: rejects responses shorter than 4 bytes, then
dispatches on byte 3: `0x7F` gives a negative response built from bytes 4
and 5 (raising `IndexError` when absent), anything else a positive response
with `service_id = response[3] - 0x40` and `data = response[4:-1]`. -/
def parse_response (response : List Nat) : Except ParseError ServiceResult :=
  if response.length < 4 then Except.error ParseError.tooShort
  else if response.getD 3 0 = 0x7F then do
    let service_id ← getByte response 4
    let error_code ← getByte response 5
    return ServiceResult.negative service_id error_code
  else
    Except.ok (ServiceResult.positive ((response.getD 3 0 : Int) - 0x40)
      ((response.drop 4).dropLast))

/-- One uppercase hexadecimal digit (`0`–`9`, `A`–`F`). -/
def hexDigit (n : Nat) : Char :=
  if n < 10 then Char.ofNat (0x30 + n) else Char.ofNat (0x37 + n)

/-- Python's format spec `{:02X}` for byte values (`< 256`): exactly two
uppercase hexadecimal digits. -/
def toHex2 (n : Nat) : String :=
  String.mk [hexDigit (n / 16 % 16), hexDigit (n % 16)]

/-- The `DTCStatus` enum, as the ordered `(mask, name)` table Python
iterates over with `for flag in DTCStatus`. -/
def dtcStatusMasks : List (Nat × String) :=
  [(0x80, "TEST_FAILED"),
   (0x40, "TEST_FAILED_THIS_OPERATION_CYCLE"),
   (0x20, "PENDING_DTC"),
   (0x10, "CONFIRMED_DTC"),
   (0x08, "TEST_NOT_COMPLETED_SINCE_LAST_CLEAR"),
   (0x04, "TEST_FAILED_SINCE_LAST_CLEAR"),
   (0x02, "TEST_NOT_COMPLETED_THIS_OPERATION_CYCLE"),
   (0x01, "WARNING_INDICATOR_REQUESTED")]

/-- The status-flag decoding loop of `KWPUtils.parse_dtcs`: the names of
the `DTCStatus` masks whose bit is set in the status byte, in enum order. -/
def statusFlags (status : Nat) : List String :=
  (dtcStatusMasks.filter fun p => status &&& p.1 != 0).map Prod.snd

/-- One decoded DTC record, the dict appended by `KWPUtils.parse_dtcs`:
`code`, raw `status` byte and decoded `status_flags`. -/
structure DTC where
  code : String
  status : Nat
  status_flags : List String
deriving DecidableEq

/-- One iteration of the `for i in range(num_dtc)` loop of
`KWPUtils.parse_dtcs`: reads the 3-byte group at `offset = 1 + i * 3`
(raising `IndexError` past the end) and builds the record with
`code = f"P{dtc_high:02X}{dtc_low:02X}"`. -/
def parseDtcGroup (response_data : List Nat) (i : Nat) : Except ParseError DTC := do
  let dtc_high ← getByte response_data (1 + i * 3)
  let dtc_low ← getByte response_data (1 + i * 3 + 1)
  let status ← getByte response_data (1 + i * 3 + 2)
  return DTC.mk ("P" ++ toHex2 dtc_high ++ toHex2 dtc_low) status (statusFlags status)

/-- The loop of `KWPUtils.parse_dtcs`, running iterations `i`,
`i+1`, …, `i+count-1` and collecting the records in order; the first
`IndexError` aborts the whole computation, as in Python. -/
def parseDtcsFrom (response_data : List Nat) (i count : Nat) : Except ParseError (List DTC) :=
  match count with
  | 0 => Except.ok []
  | c + 1 => do
    let d ← parseDtcGroup response_data i
    let rest ← parseDtcsFrom response_data (i + 1) c
    return d :: rest

/-- Model of `KWPUtils.parse_dtcs`: empty input returns the empty list (not an
error); otherwise the first byte is the DTC count and the loop decodes that
many 3-byte groups, raising `IndexError` when the payload is too short. -/
def parse_dtcs (response_data : List Nat) : Except ParseError (List DTC) :=
  if response_data.length < 1 then Except.ok []
  else parseDtcsFrom response_data 0 (response_data.getD 0 0)

/-- The dict returned by `KWPUtils.parse_identification`: empty (`vin = none`)
or carrying the `'VIN'` entry. -/
structure IdentRecord where
  vin : Option String
deriving DecidableEq

/-- Python's `bytes.decode('ascii', errors='ignore')`: non-ASCII bytes
(`≥ 0x80`) are silently dropped, the rest become their ASCII characters. -/
def decodeAsciiIgnore (bs : List Nat) : String :=
  String.mk ((bs.filter fun b => b < 128).map fun b => Char.ofNat b)

/-- Model of `KWPUtils.parse_identification`: empty input gives the empty dict;
identification type `0x80` gives `{'VIN': response_data[1:20].decode('ascii',
errors='ignore')}` (a slice, which never raises — it silently truncates);
any other type gives the empty dict.  The function is total: the Python
code cannot raise. -/
def parse_identification (response_data : List Nat) : IdentRecord :=
  if response_data.length < 1 then IdentRecord.mk none
  else if response_data.getD 0 0 = 0x80 then
    IdentRecord.mk (some (decodeAsciiIgnore ((response_data.take 20).drop 1)))
  else IdentRecord.mk none

/-- The fields extracted by `KWPUtils.parse_ass_params` into its result
dict.  Python renders `coolant_temp`, `rpm` and `voltage` into display
strings; the numeric values before formatting are kept here.  `voltage`
uses Python floats; it is modelled exactly over `ℚ`. -/
structure AssParams where
  oxygen_sensor : Bool
  adsorber : Bool
  coolant_temp : Int
  rpm : Nat
  voltage : ℚ
deriving DecidableEq

/-- Model of `KWPUtils.parse_ass_params`: input shorter than 36 bytes returns the
empty dict, modelled as `none` (the Python function never raises — all
indices read, up to 20, are in bounds once the length check passes);
otherwise the fixed-offset fields are extracted and scaled. -/
def parse_ass_params (response_data : List Nat) : Option AssParams :=
  if response_data.length < 36 then none
  else
    let equip1 := response_data.getD 2 0
    some (AssParams.mk (equip1 &&& 0x01 != 0) (equip1 &&& 0x02 != 0)
      ((response_data.getD 10 0 : Int) - 40)
      (response_data.getD 13 0 * 40)
      ((5.2 : ℚ) + (response_data.getD 20 0 : ℚ) * (0.05 : ℚ)))

/-- Byte encoding of a list of `(dtc_high, dtc_low, status)` groups, as they
appear in a ReadDTCByStatus payload after the count byte. -/
def encodeGroups (groups : List (Nat × Nat × Nat)) : List Nat :=
  groups.flatMap fun g => [g.1, g.2.1, g.2.2]


/-! ## Helper lemmas -/

/-- Summing a list after overwriting position `i` trades the old entry for
the new one. -/
theorem sum_set_add_getD (B : List Nat) (i v : Nat) (h : i < B.length) :
    (B.set i v).sum + B.getD i 0 = B.sum + v := by
  induction B generalizing i with
  | nil => simp at h
  | cons a t ih =>
    cases i with
    | zero => simp [List.set]; omega
    | succ j =>
      simp only [List.set, List.sum_cons, List.getD_cons_succ]
      have := ih j (by simpa using h)
      omega

/-- An in-range index read through `getElem?` yields the `getD` value. -/
theorem getElem?_eq_some_getD (l : List Nat) (n : Nat) (h : n < l.length) :
    l[n]? = some (l.getD n 0) := by
  rw [List.getD_eq_getElem?_getD]
  cases hx : l[n]?
  · rw [List.getElem?_eq_none_iff] at hx; omega
  · rfl

/-- Reading an in-range byte succeeds with the `getD` value. -/
theorem getByte_ok (l : List Nat) (n : Nat) (h : n < l.length) :
    getByte l n = Except.ok (l.getD n 0) := by
  rw [getByte, getElem?_eq_some_getD l n h]

/-- Reading past the end raises the index error. -/
theorem getByte_err (l : List Nat) (n : Nat) (h : l.length ≤ n) :
    getByte l n = Except.error ParseError.indexOutOfRange := by
  rw [getByte, List.getElem?_eq_none h]

/-- Evaluation of `parse_response` on a well-formed negative response. -/
theorem parse_response_neg_ok (r : List Nat) (h6 : 6 ≤ r.length) (h7f : r.getD 3 0 = 0x7F) :
    parse_response r = Except.ok (ServiceResult.negative (r.getD 4 0) (r.getD 5 0)) := by
  unfold parse_response
  rw [if_neg (by omega), if_pos h7f, getByte_ok r 4 (by omega), getByte_ok r 5 (by omega)]
  rfl

/-- Evaluation of `parse_response` on a positive response. -/
theorem parse_response_pos_eq (r : List Nat) (h4 : 4 ≤ r.length) (hne : r.getD 3 0 ≠ 0x7F) :
    parse_response r = Except.ok (ServiceResult.positive ((r.getD 3 0 : Int) - 0x40)
      ((r.drop 4).dropLast)) := by
  unfold parse_response
  rw [if_neg (by omega), if_neg hne]

/-- Evaluation of `parse_response` on a negative response whose trailing
bytes are missing: the out-of-bounds read is the defined index error. -/
theorem parse_response_err4 (r : List Nat) (h : r.length = 4 ∨ r.length = 5)
    (h7f : r.getD 3 0 = 0x7F) :
    parse_response r = Except.error ParseError.indexOutOfRange := by
  unfold parse_response
  rw [if_neg (by omega), if_pos h7f]
  rcases h with h | h
  · rw [getByte_err r 4 (by omega)]
    rfl
  · rw [getByte_ok r 4 (by omega), getByte_err r 5 (by omega)]
    rfl

/-! ## Claim theorems -/

/-- C1: appending `calculate_checksum B` to any byte sequence `B` yields a
frame that passes `send_request`'s receive-side checksum validation, and
changing any single byte of `B` (to a different byte value, without
recomputing the checksum) makes validation fail. -/
theorem c1_checksum_roundtrip (B : List Nat) :
    checksum_valid (B ++ [calculate_checksum B]) = true ∧
    (∀ i v, i < B.length → B.getD i 0 < 256 → v < 256 → v ≠ B.getD i 0 →
      checksum_valid (B.set i v ++ [calculate_checksum B]) = false) := by
  constructor
  · simp [checksum_valid, List.getLastD_concat]
  · intro i v hi hB hv hne
    simp only [checksum_valid, List.length_append, List.length_set, List.getLastD_concat]
    rw [if_neg (by simp)]
    simp only [beq_eq_false_iff_ne, ne_eq]
    intro hEq
    rw [show (B.set i v ++ [calculate_checksum B]).dropLast = B.set i v by simp] at hEq
    have hmod : (B.set i v).sum % 256 = B.sum % 256 := by
      simpa [calculate_checksum] using hEq.symm
    have h2 : ((B.set i v).sum + B.getD i 0) % 256 = (B.sum + B.getD i 0) % 256 :=
      Nat.ModEq.add_right _ hmod
    rw [sum_set_add_getD B i v hi] at h2
    have h3 : v % 256 = B.getD i 0 % 256 := Nat.ModEq.add_left_cancel' B.sum h2
    rw [Nat.mod_eq_of_lt hv, Nat.mod_eq_of_lt hB] at h3
    exact hne h3

/-- Witness for C1 at `B = [1, 2, 3]`, mutating byte 0 to 9. -/
theorem c1_witness :
    checksum_valid ([1, 2, 3] ++ [calculate_checksum [1, 2, 3]]) = true ∧
    checksum_valid (([1, 2, 3] : List Nat).set 0 9 ++ [calculate_checksum [1, 2, 3]]) = false := by
  obtain ⟨h1, h2⟩ := c1_checksum_roundtrip [1, 2, 3]
  exact ⟨h1, h2 0 9 (by decide) (by decide) (by decide) (by decide)⟩

/-- C2: `parse_response` fails with the too-short error exactly on inputs of
length 0, 1, 2 or 3; and on inputs of length 4 or 5 whose byte 3 is `0x7F`
(a negative response missing its service-id or NRC byte) it fails with the
defined index-out-of-range error, not undefined behaviour. -/
theorem c2_short_rejection (r : List Nat) :
    (parse_response r = Except.error ParseError.tooShort ↔ r.length < 4) ∧
    (r.length = 4 ∨ r.length = 5 → r.getD 3 0 = 0x7F →
      parse_response r = Except.error ParseError.indexOutOfRange) := by
  constructor
  · constructor
    · intro h
      by_contra hlen
      by_cases h7f : r.getD 3 0 = 0x7F
      · by_cases h6 : 6 ≤ r.length
        · rw [parse_response_neg_ok r h6 h7f] at h
          exact Except.noConfusion h
        · rw [parse_response_err4 r (by omega) h7f] at h
          simp at h
      · rw [parse_response_pos_eq r (by omega) h7f] at h
        exact Except.noConfusion h
    · intro h
      unfold parse_response
      rw [if_pos h]
  · exact parse_response_err4 r

/-- Witness for C2: truncated negative responses of lengths 4 and 5 give the
index error, and a length-3 input gives the too-short error. -/
theorem c2_witness :
    parse_response [0, 0, 0, 0x7F] = Except.error ParseError.indexOutOfRange ∧
    parse_response [0, 0, 0, 0x7F, 1] = Except.error ParseError.indexOutOfRange ∧
    parse_response [0, 0, 0] = Except.error ParseError.tooShort := by
  refine ⟨(c2_short_rejection [0, 0, 0, 0x7F]).2 (by decide) (by decide),
    (c2_short_rejection [0, 0, 0, 0x7F, 1]).2 (by decide) (by decide),
    (c2_short_rejection [0, 0, 0]).1.mpr (by decide)⟩

/-- C3: on any response of length at least 6 whose byte 3 is `0x7F`,
`parse_response` returns the negative variant with `service_id` the byte at
offset 4 and `error_code` the byte at offset 5. -/
theorem c3_negative_response (r : List Nat) (h6 : 6 ≤ r.length) (h7f : r.getD 3 0 = 0x7F) :
    parse_response r = Except.ok (ServiceResult.negative (r.getD 4 0) (r.getD 5 0)) :=
  parse_response_neg_ok r h6 h7f

/-- Witness for C3 at the frame `83 F1 10 7F 10 22 55`. -/
theorem c3_witness :
    parse_response [131, 241, 16, 127, 16, 34, 85] =
      Except.ok (ServiceResult.negative 16 34) := by
  have h := c3_negative_response [131, 241, 16, 127, 16, 34, 85] (by decide) (by decide)
  simpa using h

/-- C4: on any response of length at least 4 whose byte 3 is not `0x7F`,
`parse_response` returns the positive variant with `service_id` equal to
byte 3 minus `0x40` and `data` equal to the bytes from offset 4 up to but
excluding the final checksum byte; for a byte 3 of the form
`request_id + 0x40` the derived `service_id` is `request_id`. -/
theorem c4_positive_response (r : List Nat) (h4 : 4 ≤ r.length) (hne : r.getD 3 0 ≠ 0x7F) :
    parse_response r = Except.ok (ServiceResult.positive ((r.getD 3 0 : Int) - 0x40)
      ((r.drop 4).dropLast)) ∧
    ((r.drop 4).dropLast).length = r.length - 5 ∧
    (∀ pre body ck, pre.length = 4 → r = pre ++ body ++ [ck] → (r.drop 4).dropLast = body) ∧
    (∀ req : Nat, r.getD 3 0 = req + 0x40 → (r.getD 3 0 : Int) - 0x40 = (req : Int)) := by
  refine ⟨parse_response_pos_eq r h4 hne, ?_, ?_, ?_⟩
  · simp only [List.length_dropLast, List.length_drop]
    omega
  · intro pre body ck hpre hr
    subst hr
    rw [List.append_assoc, ← hpre, List.drop_left]
    simp
  · intro req hreq
    rw [hreq]
    push_cast
    ring

/-- Witness for C4 at the frame `83 F1 10 C1 AA BB 99`:
`service_id = 0xC1 - 0x40 = 0x81` and `data = [0xAA, 0xBB]`. -/
theorem c4_witness :
    parse_response [131, 241, 16, 193, 170, 187, 153] =
      Except.ok (ServiceResult.positive 129 [170, 187]) ∧
    (129 : Int) = 193 - 0x40 := by
  have h := (c4_positive_response [131, 241, 16, 193, 170, 187, 153]
    (by decide) (by decide)).1
  constructor
  · simpa using h
  · decide

/-- Bounded bitwise facts behind the header format byte. -/
theorem or_mask_facts : ∀ m < 64, (0x80 ||| m) &&& 0xC0 = 0x80 ∧ (0x80 ||| m) &&& 0x3F = m := by
  decide

/-- C5: for every length, `build_header` without a length byte returns
exactly the 3 bytes `[0x80 | (length & 0x3F), 0x10, 0xF1]`, whose first
byte masks to `0x80` under `0xC0` and to `length & 0x3F` under `0x3F`; for
every length in `0..255`, with a length byte it returns those 3 bytes
followed by the length itself. -/
theorem c5_build_header (l : Nat) :
    build_header l false = some [0x80 ||| (l &&& 0x3F), 0x10, 0xF1] ∧
    (0x80 ||| (l &&& 0x3F)) &&& 0xC0 = 0x80 ∧
    (0x80 ||| (l &&& 0x3F)) &&& 0x3F = l &&& 0x3F ∧
    (l ≤ 0xFF → build_header l true = some [0x80 ||| (l &&& 0x3F), 0x10, 0xF1, l]) := by
  have hand : l &&& 0x3F ≤ 0x3F := Nat.and_le_right
  obtain ⟨h1, h2⟩ := or_mask_facts (l &&& 0x3F) (by omega)
  refine ⟨rfl, h1, h2, fun hle => ?_⟩
  simp [build_header, ECU_ADDRESS, TESTER_ADDRESS, hle]

/-- Witness for C5 at `length = 5`. -/
theorem c5_witness :
    build_header 5 false = some [133, 16, 241] ∧
    build_header 5 true = some [133, 16, 241, 5] := by
  have h := c5_build_header 5
  exact ⟨by simpa using h.1, by simpa using h.2.2.2 (by decide)⟩

/-- Reading a byte of the suffix through an offset equal to the prefix
length. -/
theorem getByte_append (pre x : List Nat) (k : Nat) :
    getByte (pre ++ x) (pre.length + k) = getByte x k := by
  rw [getByte, getByte, List.getElem?_append_right (by omega), Nat.add_sub_cancel_left]

/-- Iteration `i` of the DTC loop, positioned exactly at its 3-byte group. -/
theorem parseDtcGroup_at (pre rest : List Nat) (a b c : Nat) (i : Nat)
    (hpre : pre.length = 1 + i * 3) :
    parseDtcGroup (pre ++ (a :: b :: c :: rest)) i =
      Except.ok (DTC.mk ("P" ++ toHex2 a ++ toHex2 b) c (statusFlags c)) := by
  have g0 : getByte (pre ++ (a :: b :: c :: rest)) pre.length = Except.ok a := by
    simpa [getByte] using getByte_append pre (a :: b :: c :: rest) 0
  have g1 : getByte (pre ++ (a :: b :: c :: rest)) (pre.length + 1) = Except.ok b := by
    simpa [getByte] using getByte_append pre (a :: b :: c :: rest) 1
  have g2 : getByte (pre ++ (a :: b :: c :: rest)) (pre.length + 2) = Except.ok c := by
    simpa [getByte] using getByte_append pre (a :: b :: c :: rest) 2
  unfold parseDtcGroup
  rw [← hpre, g0, g1, g2]
  rfl

/-- The DTC loop decodes exactly the encoded groups in front of it,
ignoring everything after them. -/
theorem parseDtcsFrom_encode (groups : List (Nat × Nat × Nat)) (garbage : List Nat) :
    ∀ pre i, pre.length = 1 + i * 3 →
    parseDtcsFrom (pre ++ (encodeGroups groups ++ garbage)) i groups.length =
      Except.ok (groups.map fun g =>
        DTC.mk ("P" ++ toHex2 g.1 ++ toHex2 g.2.1) g.2.2 (statusFlags g.2.2)) := by
  induction groups with
  | nil => intro pre i _; simp [encodeGroups, parseDtcsFrom]
  | cons g gs ih =>
    intro pre i hpre
    have hx : encodeGroups (g :: gs) ++ garbage =
        g.1 :: g.2.1 :: g.2.2 :: (encodeGroups gs ++ garbage) := by
      simp [encodeGroups]
    rw [hx]
    simp only [List.length_cons, List.map_cons, parseDtcsFrom]
    rw [parseDtcGroup_at pre _ g.1 g.2.1 g.2.2 i hpre]
    have hdata : pre ++ (g.1 :: g.2.1 :: g.2.2 :: (encodeGroups gs ++ garbage)) =
        (pre ++ [g.1, g.2.1, g.2.2]) ++ (encodeGroups gs ++ garbage) := by
      simp
    rw [hdata, ih (pre ++ [g.1, g.2.1, g.2.2]) (i + 1) (by simp [hpre]; omega)]
    rfl

/-- C6: for a payload of a count byte `N`, then `N` encoded 3-byte groups,
then arbitrary trailing bytes, `parse_dtcs` returns exactly the `N` records
of those groups (empty for `N = 0`), ignoring the trailing bytes; each
record's code is `P` followed by the two bytes in two uppercase hex digits
each (`0x01, 0x23` renders as `01` and `23`, so code `P0123`), and the
status flags are exactly the mask names set in the status byte. -/
theorem c6_dtc_decoding (groups : List (Nat × Nat × Nat)) (garbage : List Nat)
    (_hN : groups.length ≤ 255) :
    parse_dtcs (groups.length :: (encodeGroups groups ++ garbage)) =
      Except.ok (groups.map fun g =>
        DTC.mk ("P" ++ toHex2 g.1 ++ toHex2 g.2.1) g.2.2 (statusFlags g.2.2)) ∧
    (groups.map fun g =>
      DTC.mk ("P" ++ toHex2 g.1 ++ toHex2 g.2.1) g.2.2 (statusFlags g.2.2)).length =
      groups.length ∧
    toHex2 0x01 = "01" ∧ toHex2 0x23 = "23" ∧
    (∀ s name, name ∈ statusFlags s ↔
      ∃ mask, (mask, name) ∈ dtcStatusMasks ∧ s &&& mask ≠ 0) := by
  refine ⟨?_, List.length_map _ _, by decide, by decide, ?_⟩
  · unfold parse_dtcs
    rw [if_neg (by simp)]
    have hget : (groups.length :: (encodeGroups groups ++ garbage)).getD 0 0 =
        groups.length := rfl
    rw [hget, show groups.length :: (encodeGroups groups ++ garbage) =
      [groups.length] ++ (encodeGroups groups ++ garbage) from rfl]
    exact parseDtcsFrom_encode groups garbage [groups.length] 0 (by simp)
  · intro s name
    simp only [statusFlags, List.mem_map, List.mem_filter, bne_iff_ne, ne_eq]
    constructor
    · rintro ⟨⟨m, nm⟩, ⟨hmem, hbit⟩, hn⟩
      simp only [] at hn
      subst hn
      exact ⟨m, hmem, hbit⟩
    · rintro ⟨m, hmem, hbit⟩
      exact ⟨(m, name), ⟨hmem, hbit⟩, rfl⟩

/-- Witness for C6: one group `(0x01, 0x23, 0x90)` plus two garbage bytes
decodes to the single record `P0123` with flags TEST_FAILED and
CONFIRMED_DTC. -/
theorem c6_witness :
    parse_dtcs [1, 1, 35, 144, 7, 7] =
      Except.ok [DTC.mk "P0123" 144 ["TEST_FAILED", "CONFIRMED_DTC"]] := by
  have h := (c6_dtc_decoding [(1, 35, 144)] [7, 7] (by decide)).1
  revert h
  decide

/-- C7 counterexample: the claim says each decoder fails with a
payload-too-short error below its minimum length, but the code returns an
empty success instead: `parse_dtcs` on the empty payload returns `ok []`
(its only failure mode, the index error, is not raised),
`parse_identification` returns the empty record, and `parse_ass_params` on
a 35-byte payload returns the empty dict. -/
theorem c7_counterexample :
    parse_dtcs [] = Except.ok [] ∧
    parse_identification [] = IdentRecord.mk none ∧
    parse_ass_params (List.replicate 35 0) = none := by
  refine ⟨by decide, by decide, ?_⟩
  unfold parse_ass_params
  rw [if_pos (by simp)]

/-- C7 as amended: below its minimum required length each decoder returns
an empty result rather than failing — the DTC decoder an empty list, the
identification decoder a record with no fields, the parameter-block decoder
the empty dict (hence never a partial or garbage result). -/
theorem c7_amended (d : List Nat) :
    (d.length < 1 →
      parse_dtcs d = Except.ok [] ∧ parse_identification d = IdentRecord.mk none) ∧
    (d.length < 36 → parse_ass_params d = none) := by
  constructor
  · intro h
    have hd : d = [] := by
      cases d with
      | nil => rfl
      | cons a t => simp at h
    subst hd
    exact ⟨by decide, by decide⟩
  · intro h
    unfold parse_ass_params
    rw [if_pos h]

/-- Witness for the amended C7 at the empty payload. -/
theorem c7_witness :
    parse_dtcs ([] : List Nat) = Except.ok [] ∧
    parse_identification ([] : List Nat) = IdentRecord.mk none ∧
    parse_ass_params ([] : List Nat) = none := by
  obtain ⟨h1, h2⟩ := c7_amended []
  obtain ⟨ha, hb⟩ := h1 (by decide)
  exact ⟨ha, hb, h2 (by decide)⟩

/-- C8: for any payload of length at least 36, the parameter-block decoder
reports coolant temperature `byte[10] - 40`, engine RPM `byte[13] * 40` and
battery voltage `5.2 + byte[20] * 0.05` (exact-rational model of the
Python float arithmetic), along with the two equipment flags of byte 2. -/
theorem c8_param_scaling (d : List Nat) (h : 36 ≤ d.length) :
    parse_ass_params d = some (AssParams.mk
      (d.getD 2 0 &&& 0x01 != 0) (d.getD 2 0 &&& 0x02 != 0)
      ((d.getD 10 0 : Int) - 40) (d.getD 13 0 * 40)
      ((5.2 : ℚ) + (d.getD 20 0 : ℚ) * (0.05 : ℚ))) := by
  unfold parse_ass_params
  rw [if_neg (by omega)]

/-- Witness for C8: `byte[10] = 70` gives 30 °C, `byte[13] = 25` gives
1000 rpm, `byte[20] = 10` gives 5.70 V. -/
theorem c8_witness :
    parse_ass_params
      [0, 0, 0, 0, 0, 0, 0, 0, 0, 0, 70, 0, 0, 25, 0, 0, 0, 0, 0, 0,
       10, 0, 0, 0, 0, 0, 0, 0, 0, 0, 0, 0, 0, 0, 0, 0] =
      some (AssParams.mk false false 30 1000 (5.70 : ℚ)) := by
  have h := c8_param_scaling
    [0, 0, 0, 0, 0, 0, 0, 0, 0, 0, 70, 0, 0, 25, 0, 0, 0, 0, 0, 0,
     10, 0, 0, 0, 0, 0, 0, 0, 0, 0, 0, 0, 0, 0, 0, 0] (by decide)
  rw [h]
  norm_num

/-- A loop iteration whose group extends past the payload raises the index
error. -/
theorem parseDtcGroup_oob (d : List Nat) (i : Nat) (h : d.length ≤ 1 + i * 3 + 2) :
    parseDtcGroup d i = Except.error ParseError.indexOutOfRange := by
  unfold parseDtcGroup
  by_cases h0 : d.length ≤ 1 + i * 3
  · rw [getByte_err d _ h0]
    rfl
  · rw [getByte_ok d _ (by omega)]
    by_cases h1 : d.length ≤ 1 + i * 3 + 1
    · rw [getByte_err d _ h1]
      rfl
    · rw [getByte_ok d _ (by omega), getByte_err d _ h]
      rfl

/-- The whole DTC loop raises the index error whenever the payload ends
before its last group does. -/
theorem parseDtcsFrom_oob (d : List Nat) (c : Nat) :
    ∀ i, 1 ≤ c → d.length ≤ 3 * (i + c) →
    parseDtcsFrom d i c = Except.error ParseError.indexOutOfRange := by
  induction c with
  | zero => intro i h1 _; omega
  | succ c ih =>
    intro i h1 hlen
    by_cases hg : d.length ≤ 1 + i * 3 + 2
    · simp only [parseDtcsFrom]
      rw [parseDtcGroup_oob d i hg]
      rfl
    · have hok : parseDtcGroup d i = Except.ok
          (DTC.mk ("P" ++ toHex2 (d.getD (1 + i * 3) 0) ++ toHex2 (d.getD (1 + i * 3 + 1) 0))
            (d.getD (1 + i * 3 + 2) 0) (statusFlags (d.getD (1 + i * 3 + 2) 0))) := by
        unfold parseDtcGroup
        rw [getByte_ok d _ (by omega), getByte_ok d _ (by omega), getByte_ok d _ (by omega)]
        rfl
      simp only [parseDtcsFrom]
      rw [hok, ih (i + 1) (by omega) (by omega)]
      rfl

/-- C9: on any non-empty payload whose count byte overdeclares the data
present (`length < 1 + 3 * N`), `parse_dtcs` fails with the out-of-bounds
index error — it never silently returns a partial list. -/
theorem c9_overdeclared_count (d : List Nat) (hne : d ≠ [])
    (hlt : d.length < 1 + 3 * d.headD 0) :
    parse_dtcs d = Except.error ParseError.indexOutOfRange := by
  obtain ⟨n, t, rfl⟩ : ∃ n t, d = n :: t := by
    cases d with
    | nil => exact absurd rfl hne
    | cons n t => exact ⟨n, t, rfl⟩
  unfold parse_dtcs
  rw [if_neg (by simp), show (n :: t).getD 0 0 = n from rfl]
  have hn : t.length < 3 * n := by
    simp only [List.length_cons, List.headD_cons] at hlt
    omega
  exact parseDtcsFrom_oob (n :: t) n 0 (by omega) (by simp; omega)

/-- Witness for C9: count byte 2 over a single complete group. -/
theorem c9_witness : parse_dtcs [2, 1, 2, 3] = Except.error ParseError.indexOutOfRange :=
  c9_overdeclared_count [2, 1, 2, 3] (by decide) (by decide)

/-- C10: an identification payload with type byte `0x80` and total length
between 1 and 19 does not fail: the VIN field is the ASCII (ignore-errors)
decoding of the available bytes after the type byte, silently truncated
below the 19-byte VIN length. -/
theorem c10_truncated_vin (d : List Nat) (h1 : 1 ≤ d.length) (h19 : d.length ≤ 19)
    (h80 : d.getD 0 0 = 0x80) :
    parse_identification d = IdentRecord.mk (some (decodeAsciiIgnore (d.drop 1))) ∧
    (decodeAsciiIgnore (d.drop 1)).length ≤ d.length - 1 ∧ d.length - 1 < 19 := by
  refine ⟨?_, ?_, by omega⟩
  · unfold parse_identification
    rw [if_neg (by omega), if_pos h80, List.take_of_length_le (by omega)]
  · have hlen : (decodeAsciiIgnore (d.drop 1)).length =
        (((d.drop 1).filter fun b => b < 128).map fun b => Char.ofNat b).length := rfl
    rw [hlen, List.length_map]
    calc ((d.drop 1).filter fun b => b < 128).length ≤ (d.drop 1).length :=
        List.length_filter_le _ _
      _ = d.length - 1 := by simp

/-- Witness for C10: a 4-byte payload `80 41 42 43` yields the 3-character
VIN `ABC`. -/
theorem c10_witness :
    parse_identification [0x80, 65, 66, 67] = IdentRecord.mk (some "ABC") := by
  have h := (c10_truncated_vin [0x80, 65, 66, 67] (by decide) (by decide) (by decide)).1
  revert h
  decide

end KWP2000
